import Mathlib

/-!
Verification of the coastlib Extreme Value Analysis engine
(`coastlib/core/data_analysis_tools.py` and `coastlib/stats/extreme.py`).

Shallow embedding conventions:
* a sample is a pair `(timestamp, value)`; timestamps are integers (hours),
  values are rationals (exact stand-ins for Python floats);
* the stateful `EVA` methods are modelled as pure functions on sample lists;
* Python exceptions are modelled with `Option`/dedicated outcome types;
* random draws (`scipy.stats.*.rvs`) are modelled by an explicit oracle record.
-/

namespace Coastlib

/-- A time-stamped sample `(timestamp in hours, value)`. -/
abbrev Event := ℤ × ℚ

/-- The declustering loop of `EVA.get_extremes` (data_analysis_tools.py lines
315-324).  `a` is the representative (timestamp, value) of the active cluster,
i.e. the last entry of the Python lists `new_indexes`/`new_values`; a new event
`e` starts a new cluster when `e.time - a.time >= r`, otherwise it joins the
active cluster and replaces its representative exactly when its value is
strictly greater. -/
def runDecluster (r : ℤ) : Event → List Event → List Event
  | a, [] => [a]
  | a, e :: es =>
    if r ≤ e.1 - a.1 then a :: runDecluster r e es
    else if a.2 < e.2 then runDecluster r e es
    else runDecluster r a es

/-- POT selection `self.data[self.data[self.col] > u]`
(data_analysis_tools.py line 310). -/
def potExceedances (u : ℚ) (data : List Event) : List Event :=
  data.filter (fun s => decide (u < s.2))

/-- Declustered POT extraction (data_analysis_tools.py lines 310-325).
The Python code starts the loop with `new_indexes = [indexes[0]]`, which
raises `IndexError` when no sample exceeds the threshold; that failure is
modelled by `none`. -/
def potDecluster (u : ℚ) (r : ℤ) (data : List Event) : Option (List Event) :=
  match potExceedances u data with
  | [] => none
  | e :: es => some (runDecluster r e es)

/-- Length of the declustered run over the `u`-exceedances of `l`, started at
anchor `a`.  Used to reason about the extraction count. -/
def potCount (u : ℚ) (r : ℤ) (a : Event) (l : List Event) : ℕ :=
  (runDecluster r a (l.filter (fun s => decide (u < s.2)))).length

/-- Number of declustered POT events over `l` (0 when the extraction fails
because no sample exceeds the threshold). -/
def potStartCount (u : ℚ) (r : ℤ) (l : List Event) : ℕ :=
  match potDecluster u r l with
  | none => 0
  | some L => L.length

/-- `n` consecutive hourly samples of value 1.0 starting at hour `lo`
(background of the concrete POT scenario). -/
def flatOnes (lo : ℤ) (n : ℕ) : List Event :=
  (List.range n).map (fun i => (lo + (i : ℤ), (1 : ℚ)))

/-- The concrete 2-year hourly series of the spec scenario: all values 1.0
except 12.0 at day 10 (hour 240), 13.0 one hour later (hour 241) and 9.0 at
day 200 (hour 4800); 2 years of hourly samples = 17520 entries. -/
def c1Series : List Event :=
  flatOnes 0 240 ++ [((240 : ℤ), (12 : ℚ)), ((241 : ℤ), (13 : ℚ))] ++
    flatOnes 242 4558 ++ [((4800 : ℤ), (9 : ℚ))] ++ flatOnes 4801 12719

/-- One observation of the `EVA` data: timestamp (hours), the calendar year of
the timestamp (what `self.data.index.year` reads) and the value. -/
structure Obs where
  time : ℤ
  year : ℤ
  value : ℚ
deriving DecidableEq, Repr

/-- `self.N = np.unique(self.data.index.year).max() -
np.unique(self.data.index.year).min() + 1` (data_analysis_tools.py line 270):
the count of calendar years spanned, as an integer. -/
def codeYearCount (data : List Obs) : ℤ :=
  ((data.map Obs.year).max?.getD 0) - ((data.map Obs.year).min?.getD 0) + 1

/-- One Gregorian year (365.2425 days) in hours. -/
def blockSizeHours : ℚ := 876582 / 100

/-- Modelled from the spec: `number_of_blocks = span / block_size` as the spec
words it (the `number_of_blocks` property of `coastlib/stats/extreme.py`,
line 70, with the default one-Gregorian-year block size); the span is the
difference between the last and first timestamps of the sorted record. -/
def specNumberOfBlocks (data : List Obs) : ℚ :=
  ((((data.map Obs.time).max?.getD 0) - ((data.map Obs.time).min?.getD 0) : ℤ) : ℚ) /
    blockSizeHours

/-- `self.extremes.sort_values(by=self.col)` (data_analysis_tools.py line 345):
sort the extracted events ascending by value. -/
def sortByValue (l : List Event) : List Event :=
  l.insertionSort (fun p q => p.2 ≤ q.2)

/-- Weibull plotting positions (data_analysis_tools.py lines 345-348): sort by
value, then assign to the event of 0-based rank `i` the return period
`(N + 1) / (n * (1 - i / n))` where `cdf i = i / n`.  Output entries are
`(timestamp, value, T)`. -/
def weibullTagged (N : ℚ) (ext : List Event) : List (ℤ × ℚ × ℚ) :=
  let s := sortByValue ext
  let n : ℚ := (s.length : ℚ)
  s.enum.map (fun ie => (ie.2.1, ie.2.2, (N + 1) / (n * (1 - (ie.1 : ℚ) / n))))

/-- The stored extremes after `self.extremes.sort_index()` (line 349): the
tagged events restored to chronological order. -/
def weibullT (N : ℚ) (ext : List Event) : List (ℤ × ℚ × ℚ) :=
  (weibullTagged N ext).insertionSort (fun p q => p.1 ≤ q.1)

/-- The full declustered POT path of `get_extremes(method='POT')`: threshold
selection, declustering and Weibull return periods, with
`N = self.N` the calendar-year count. -/
def getExtremesPOT (data : List Obs) (u : ℚ) (r : ℤ) : Option (List (ℤ × ℚ × ℚ)) :=
  (potDecluster u r (data.map (fun o => (o.time, o.value)))).map
    (weibullT ((codeYearCount data : ℤ) : ℚ))

/-- Concrete record for the return-period counterexample: hourly-indexed data
starting 2000-01-01 00:00 (hour 0, year 2000) and ending 394 days later
(hour 9456, which falls in calendar year 2001). -/
def c2Data : List Obs := [⟨0, 2000, 1⟩, ⟨9456, 2001, 5⟩]

/-- `self.data.sort_index(ascending=True, inplace=True)`
(coastlib/stats/extreme.py line 52) on the caller's series. -/
def sortByTime (l : List (ℤ × Option ℚ)) : List (ℤ × Option ℚ) :=
  l.insertionSort (fun p q => p.1 ≤ q.1)

/-- `self.data.dropna(inplace=True)` (extreme.py line 55): drop missing
values; `none` models NaN. -/
def dropNaN (l : List (ℤ × Option ℚ)) : List (ℤ × Option ℚ) :=
  l.filter (fun s => s.2.isSome)

/-- The observable state after `EVA.__init__` of `coastlib/stats/extreme.py`:
`self.data = data` stores a reference to the caller's series (line 51), and
the subsequent `sort_index(..., inplace=True)` and `dropna(inplace=True)`
mutate that same object, so the caller's variable and the engine's attribute
denote one and the same cleaned series. -/
structure EVAInitResult where
  engineData : List (ℤ × Option ℚ)
  callerData : List (ℤ × Option ℚ)
deriving DecidableEq, Repr

/-- `EVA.__init__` of `coastlib/stats/extreme.py` (lines 51-56): sort the
series by index in place, then drop NaN entries in place.  Both the engine
attribute and the caller's series end up as the same cleaned object. -/
def evaInit (data : List (ℤ × Option ℚ)) : EVAInitResult :=
  let d := dropNaN (sortByTime data)
  ⟨d, d⟩

/-- Concrete caller series for the mutation counterexample: unsorted, with
one NaN entry. -/
def c4Input : List (ℤ × Option ℚ) :=
  [((2 : ℤ), some (1 : ℚ)), ((1 : ℤ), some (2 : ℚ)), ((0 : ℤ), (none : Option ℚ))]

/-- Outcome of the family/method compatibility dispatch in `EVA.fit`. -/
inductive FitOutcome
  | ok
  | valueErrorMethod
  | valueErrorDistribution
deriving DecidableEq, Repr

/-- The dispatch structure of `EVA.fit` (data_analysis_tools.py lines
542-579): GPD has no method check; GEV and Gumbel raise `ValueError` unless
the extraction method is `BM`; Weibull, Log-normal and Pearson 3 have no
method check; any other family name raises `ValueError`. -/
def fitMethodCheck (distribution method : String) : FitOutcome :=
  if distribution = "GPD" then FitOutcome.ok
  else if distribution = "GEV" then
    (if method ≠ "BM" then FitOutcome.valueErrorMethod else FitOutcome.ok)
  else if distribution = "Gumbel" then
    (if method ≠ "BM" then FitOutcome.valueErrorMethod else FitOutcome.ok)
  else if distribution = "Weibull" then FitOutcome.ok
  else if distribution = "Log-normal" then FitOutcome.ok
  else if distribution = "Pearson 3" then FitOutcome.ok
  else FitOutcome.valueErrorDistribution

/-- Outcome of the argument handling of `EVA.get_extremes`
(data_analysis_tools.py lines 304-344). -/
inductive ExtractOutcome
  | proceed
  | assertionErrorKwargs (keys : List String)
  | notImplementedBlock
  | valueErrorBlock
  | valueErrorMethod
deriving DecidableEq, Repr

/-- The error dispatch of `EVA.get_extremes`: for `POT` and `BM`, leftover
keyword arguments hit the `assert len(kwargs) == 0` statements (lines 309 and
330), raising `AssertionError` with the offending keys in the message; for
`BM`, blocks `'M'` and `'W'` raise `NotImplementedError` and any other
non-`'Y'` block raises `ValueError` (lines 333-342); an unrecognized method
raises `ValueError` (line 344). -/
def getExtremesDispatch (method block : String) (extraKwargs : List String) : ExtractOutcome :=
  if method = "POT" then
    (if extraKwargs ≠ [] then ExtractOutcome.assertionErrorKwargs extraKwargs
     else ExtractOutcome.proceed)
  else if method = "BM" then
    (if extraKwargs ≠ [] then ExtractOutcome.assertionErrorKwargs extraKwargs
     else if block = "Y" then ExtractOutcome.proceed
     else if block = "M" then ExtractOutcome.notImplementedBlock
     else if block = "W" then ExtractOutcome.notImplementedBlock
     else ExtractOutcome.valueErrorBlock)
  else ExtractOutcome.valueErrorMethod

/-- `xs.mean()` of a numpy array. -/
def listMean (xs : List ℚ) : ℚ := xs.sum / (xs.length : ℚ)

/-- `xs.std() ** 2` of a numpy array (population variance, `ddof=0`). -/
def listVar (xs : List ℚ) : ℚ :=
  ((xs.map (fun x => (x - listMean xs) ^ 2)).sum) / (xs.length : ℚ)

/-- `self.data[self.col].max()`. -/
def dataMax (data : List Event) : ℚ := ((data.map Prod.snd).max?).getD 0

/-- Threshold clipping of `pot_residuals` (data_analysis_tools.py lines
370-371): only when the largest candidate exceeds the data maximum, the
candidate list is filtered down to thresholds not exceeding it. -/
def clipThresholds (dmax : ℚ) (us : List ℚ) : List ℚ :=
  if us.any (fun x => decide (dmax < x)) then us.filter (fun x => decide (x ≤ dmax)) else us

/-- Sequence a list of `Option` results, failing if any entry fails (the loop
over thresholds fails as soon as one extraction fails). -/
def listTraverse {α β : Type} (f : α → Option β) : List α → Option (List β)
  | [] => some []
  | a :: t =>
    match f a, listTraverse f t with
    | some b, some bs => some (b :: bs)
    | _, _ => none

/-- One entry of the mean-residual-life diagnostic (decluster branch of
`pot_residuals`, lines 372-384): extract declustered extremes at `ui`, form
the residuals `value - ui`, and report the pair
(mean residual, SQUARE of the normal-interval scale).  The code passes
`scale = res.std() / len(res)` to `sps.norm.interval`; since a scale is
nonnegative the square `var / len²` determines it, and squaring keeps every
quantity rational. -/
def potResidualPoint (data : List Event) (r : ℤ) (ui : ℚ) : Option (ℚ × ℚ) :=
  (potDecluster ui r data).map (fun ext =>
    let rs := ext.map (fun s => s.2 - ui)
    (listMean rs, listVar rs / ((rs.length : ℚ)) ^ 2))

/-- `EVA.pot_residuals` over a candidate list (decluster branch): clip the
candidates, then compute each residual mean and interval scale. -/
def potResiduals (data : List Event) (us : List ℚ) (r : ℤ) : Option (List (ℚ × ℚ)) :=
  listTraverse (potResidualPoint data r) (clipThresholds (dataMax data) us)

/-- Modelled from the spec: the SQUARE of the interval scale the spec claims,
"the sample standard deviation of the residuals divided by the square root of
the sample size", i.e. `(std / sqrt n)² = var / n`. -/
def specResidualScaleSq (data : List Event) (r : ℤ) (ui : ℚ) : Option ℚ :=
  (potDecluster ui r data).map (fun ext =>
    let rs := ext.map (fun s => s.2 - ui)
    listVar rs / (rs.length : ℚ))

/-- Concrete series for the residual-diagnostic counterexample: two samples
far enough apart that declustering keeps both. -/
def c6Data : List Event := [((0 : ℤ), (10 : ℚ)), ((100 : ℤ), (14 : ℚ))]

/-- Oracle for the random draws of the Monte Carlo confidence loop:
`poissonDraw m` models `sps.poisson.rvs(m)` (a draw from a Poisson
distribution with mean `m`) and `sampleDraw n` models drawing `n` samples
from the already-fitted distribution with its location parameter pinned. -/
structure RandomState where
  poissonDraw : ℕ → ℕ
  sampleDraw : ℕ → List ℚ

/-- What one accepted Monte Carlo simulation of `EVA.fit` records: the
simulated event count, the simulated sample, the simulated exceedance rate
used for the recomputed curve, whether the refit pinned the location
parameter to the original fit (`floc=parameters[1]`), and the refitted
family. -/
structure SimOutcome where
  sampleSize : ℕ
  sample : List ℚ
  rate : ℚ
  locPinned : Bool
  refitFamily : String
deriving DecidableEq, Repr

/-- Result of evaluating a Python closure: a value, or a `NameError` raised
because the closure references an undefined variable. -/
inductive PyResult (α : Type)
  | ok (a : α)
  | nameError
deriving DecidableEq, Repr

/-- The GPD `montefit` closure of `EVA.fit` (data_analysis_tools.py lines
592-597): `loc_lex = sps.poisson.rvs(lex)` with `lex = len(self.extremes)`,
a sample of size `loc_lex` from the fitted GPD, `loc_rate = loc_lex / self.N`,
and a refit `sps.genpareto.fit(sample, floc=parameters[1])`. -/
def montefitGPD (rstate : RandomState) (lex : ℕ) (nYears : ℚ) : PyResult SimOutcome :=
  let locLex := rstate.poissonDraw lex
  PyResult.ok ⟨locLex, rstate.sampleDraw locLex, ((locLex : ℕ) : ℚ) / nYears, true, "GPD"⟩

/-- The GEV `montefit` closure of `EVA.fit` (lines 598-603): the sample draw
is written `sps.genextreme.rvs(..., size=ex)` where `ex` is an undefined
name (no Poisson draw is made), so evaluating the closure raises
`NameError` before anything else happens. -/
def montefitGEV (_rstate : RandomState) (_lex : ℕ) (_nYears : ℚ) : PyResult SimOutcome :=
  PyResult.nameError

/-- A raw Python cell value as seen by the `handle_nans` branch of
`EVA.__init__` (data_analysis_tools.py lines 273-283): a number, a float NaN,
or a value that `float()` cannot parse. -/
inductive PyVal
  | num (q : ℚ)
  | nan
  | nonNumeric
deriving DecidableEq, Repr

/-- The local `numbify` function (lines 274-278): `float(x)` when that
succeeds (NaN stays NaN), else the sentinel 999. -/
def numbify : PyVal → PyVal
  | PyVal.num q => PyVal.num q
  | PyVal.nan => PyVal.nan
  | PyVal.nonNumeric => PyVal.num 999

/-- Elementwise `!=` between a cell and a numeric literal, as pandas
evaluates it in `self.data[self.data[self.col] != c]`: NaN compares unequal
to every number. -/
def pyValNe (v : PyVal) (q : ℚ) : Bool :=
  match v with
  | PyVal.num x => decide (x ≠ q)
  | _ => true

/-- The `handle_nans=True` cleaning of `EVA.__init__` (lines 273-283): apply
`numbify`, filter out values equal to 999.999, 999.9 and 999, then keep only
non-null (non-NaN) entries, yielding the numeric series the engine works
with. -/
def handleNans (data : List (ℤ × PyVal)) : List (ℤ × ℚ) :=
  ((((data.map (fun s => (s.1, numbify s.2))).filter
        (fun s => pyValNe s.2 (999999 / 1000))).filter
      (fun s => pyValNe s.2 (9999 / 10))).filter
    (fun s => pyValNe s.2 999)).filterMap
    (fun s => match s.2 with | PyVal.num x => some (s.1, x) | _ => none)

instance : IsTotal Event fun p q => p.2 ≤ q.2 := ⟨fun a b => le_total a.2 b.2⟩

instance : IsTrans Event fun p q => p.2 ≤ q.2 := ⟨fun _ _ _ h1 h2 => le_trans h1 h2⟩

instance : IsTotal (ℤ × ℚ × ℚ) fun p q => p.1 ≤ q.1 := ⟨fun a b => le_total a.1 b.1⟩

instance : IsTrans (ℤ × ℚ × ℚ) fun p q => p.1 ≤ q.1 := ⟨fun _ _ _ h1 h2 => le_trans h1 h2⟩

instance : IsTotal (ℤ × Option ℚ) fun p q => p.1 ≤ q.1 := ⟨fun a b => le_total a.1 b.1⟩

instance : IsTrans (ℤ × Option ℚ) fun p q => p.1 ≤ q.1 := ⟨fun _ _ _ h1 h2 => le_trans h1 h2⟩

theorem potExceedances_flatOnes (u : ℚ) (lo : ℤ) (n : ℕ) (h : ¬ u < 1) :
    potExceedances u (flatOnes lo n) = [] := by
  simp only [potExceedances, flatOnes, List.filter_map, List.filter_eq_nil_iff]
  · simp [h]

theorem c1_exceedances : potExceedances 10 c1Series =
    [((240 : ℤ), (12 : ℚ)), ((241 : ℤ), (13 : ℚ))] := by
  have h1 : ¬ (10 : ℚ) < 1 := by norm_num
  have e1 := potExceedances_flatOnes 10 0 240 h1
  have e2 := potExceedances_flatOnes 10 242 4558 h1
  have e3 := potExceedances_flatOnes 10 4801 12719 h1
  unfold potExceedances at e1 e2 e3
  unfold c1Series potExceedances
  simp only [List.filter_append, e1, e2, e3]
  decide

/-- C1: POT declustering follows the forward single-pass greedy policy
anchored at the last retained event: an event closer than `r` to the retained
representative is merged, and it replaces the representative's timestamp and
value exactly when its value is strictly greater (a tie keeps the earlier
occurrence).  On the concrete 2-year hourly series with 12.0 at day 10, 13.0
one hour later and 9.0 at day 200, extraction with `u = 10`, `r = 24` h yields
exactly one event, of value 13.0 (the second and third conjuncts check the
tie-keeps-earlier and strictly-greater-replaces policies in isolation). -/
theorem c1_pot_decluster_policy :
    potDecluster 10 24 c1Series = some [((241 : ℤ), (13 : ℚ))] ∧
    runDecluster 24 ((0 : ℤ), (5 : ℚ)) [((1 : ℤ), (5 : ℚ))] = [((0 : ℤ), (5 : ℚ))] ∧
    runDecluster 24 ((0 : ℤ), (5 : ℚ)) [((1 : ℤ), (6 : ℚ))] = [((1 : ℤ), (6 : ℚ))] := by
  refine ⟨?_, by decide, by decide⟩
  unfold potDecluster
  rw [c1_exceedances]
  decide

/-- C9: when no sample value strictly exceeds the threshold, the declustered
POT path does not produce an empty event set — it fails (the Python code
indexes `indexes[0]` of an empty selection, raising `IndexError`, modelled
here by `none`). -/
theorem c9_empty_exceedances_fail (u : ℚ) (r : ℤ) (data : List Event)
    (h : ∀ s ∈ data, s.2 ≤ u) : potDecluster u r data = none := by
  have he : potExceedances u data = [] := by
    simp only [potExceedances, List.filter_eq_nil_iff]
    intro s hs
    simpa using h s hs
  unfold potDecluster
  rw [he]

/-- Witness for C9: a concrete series entirely at or below the threshold. -/
theorem c9_empty_exceedances_fail_witness :
    potDecluster 10 24 [((0 : ℤ), (1 : ℚ))] = none :=
  c9_empty_exceedances_fail 10 24 _ (by decide)

/-- C4 counterexample: the caller's series is NOT unchanged after
constructing the analysis object — on a concrete unsorted series with one
NaN, the caller's object has been sorted and cleaned in place. -/
theorem c4_counterexample_caller_mutated : (evaInit c4Input).callerData ≠ c4Input := by
  decide

/-- C4 amended: `EVA.__init__` stores a reference to the caller's series and
mutates it in place: after construction the caller's series is the same
object as the engine's data, time-sorted, and contains exactly the non-NaN
samples of the original series. -/
theorem c4_init_aliases_and_sorts (data : List (ℤ × Option ℚ)) :
    (evaInit data).callerData = (evaInit data).engineData ∧
    List.Sorted (fun p q : ℤ × Option ℚ => p.1 ≤ q.1) (evaInit data).callerData ∧
    ((evaInit data).callerData).Perm (data.filter (fun s => s.2.isSome)) := by
  refine ⟨rfl, ?_, ?_⟩
  · exact List.Pairwise.sublist (List.filter_sublist _) (List.sorted_insertionSort _ data)
  · exact (List.perm_insertionSort _ data).filter _

/-- C5 counterexample: requesting the Weibull, Log-normal or Pearson III
family after a POT extraction does NOT raise — `EVA.fit` has no method check
on those branches and proceeds with the fit. -/
theorem c5_counterexample_no_check :
    fitMethodCheck "Weibull" "POT" = FitOutcome.ok ∧
    fitMethodCheck "Log-normal" "POT" = FitOutcome.ok ∧
    fitMethodCheck "Pearson 3" "POT" = FitOutcome.ok := by
  decide

/-- C5 amended: only GEV and Gumbel enforce the BM-only pairing (requesting
either after a POT extraction raises `ValueError`); GPD accepts any method,
and Weibull, Log-normal and Pearson III perform no compatibility check at
all, so after POT they proceed instead of raising. -/
theorem c5_fit_method_compatibility :
    fitMethodCheck "GEV" "POT" = FitOutcome.valueErrorMethod ∧
    fitMethodCheck "Gumbel" "POT" = FitOutcome.valueErrorMethod ∧
    fitMethodCheck "GPD" "POT" = FitOutcome.ok ∧
    fitMethodCheck "GPD" "BM" = FitOutcome.ok ∧
    fitMethodCheck "Weibull" "POT" = FitOutcome.ok ∧
    fitMethodCheck "Log-normal" "POT" = FitOutcome.ok ∧
    fitMethodCheck "Pearson 3" "POT" = FitOutcome.ok := by
  decide

/-- C7 counterexample: a `BM` extraction with an unsupported block string
such as `"D"` raises `ValueError` (`'Unrecognized block size'`), not
`NotImplementedError` as the claim states; and leftover keyword arguments
trip an `assert`, raising `AssertionError` (naming the keys), not
`ValueError`. -/
theorem c7_counterexample_error_kinds :
    getExtremesDispatch "BM" "D" [] = ExtractOutcome.valueErrorBlock ∧
    getExtremesDispatch "BM" "D" [] ≠ ExtractOutcome.notImplementedBlock ∧
    getExtremesDispatch "POT" "Y" ["foo"] = ExtractOutcome.assertionErrorKwargs ["foo"] := by
  decide

/-- C7 amended: an unrecognized method string raises `ValueError`; BM blocks
`'M'` and `'W'` raise `NotImplementedError` while any other non-`'Y'` block
raises `ValueError`; unrecognized keyword arguments raise `AssertionError`
whose message names the offending keys. -/
theorem c7_error_contract :
    (∀ method block kwargs, method ≠ "POT" → method ≠ "BM" →
      getExtremesDispatch method block kwargs = ExtractOutcome.valueErrorMethod) ∧
    getExtremesDispatch "BM" "M" [] = ExtractOutcome.notImplementedBlock ∧
    getExtremesDispatch "BM" "W" [] = ExtractOutcome.notImplementedBlock ∧
    (∀ block, block ≠ "Y" → block ≠ "M" → block ≠ "W" →
      getExtremesDispatch "BM" block [] = ExtractOutcome.valueErrorBlock) ∧
    (∀ method kwargs, (method = "POT" ∨ method = "BM") → kwargs ≠ [] →
      getExtremesDispatch method "Y" kwargs = ExtractOutcome.assertionErrorKwargs kwargs) := by
  refine ⟨?_, by decide, by decide, ?_, ?_⟩
  · intro method block kwargs h1 h2
    simp [getExtremesDispatch, h1, h2]
  · intro block h1 h2 h3
    simp [getExtremesDispatch, h1, h2, h3]
  · intro method kwargs hm hk
    rcases hm with h | h <;> subst h <;> simp [getExtremesDispatch, hk]

/-- Witness for C7 amended: the three universally quantified parts applied at
concrete arguments. -/
theorem c7_error_contract_witness :
    getExtremesDispatch "XX" "Y" [] = ExtractOutcome.valueErrorMethod ∧
    getExtremesDispatch "BM" "D" [] = ExtractOutcome.valueErrorBlock ∧
    getExtremesDispatch "POT" "Y" ["foo"] = ExtractOutcome.assertionErrorKwargs ["foo"] :=
  ⟨c7_error_contract.1 "XX" "Y" [] (by decide) (by decide),
   c7_error_contract.2.2.2.1 "D" (by decide) (by decide) (by decide),
   c7_error_contract.2.2.2.2 "POT" ["foo"] (Or.inl rfl) (by decide)⟩

/-- C8: the parametric bootstrap of `EVA.fit`.  The GPD simulation draws its
event count from a Poisson draw with mean the observed extreme count, draws
that many samples from the fitted distribution, refits GPD with the location
pinned (`floc=parameters[1]`), and uses the simulated rate `count / N`.  The
GEV simulation, however, references the undefined name `ex` as its sample
size, so evaluating it raises `NameError`: it makes no Poisson draw at all
(and its `loc_rate` would reuse the original count). -/
theorem c8_bootstrap_paths :
    (∀ (rstate : RandomState) (lex : ℕ) (nYears : ℚ),
      montefitGEV rstate lex nYears = PyResult.nameError) ∧
    (∀ (rstate : RandomState) (lex : ℕ) (nYears : ℚ),
      montefitGPD rstate lex nYears = PyResult.ok
        ⟨rstate.poissonDraw lex, rstate.sampleDraw (rstate.poissonDraw lex),
          ((rstate.poissonDraw lex : ℕ) : ℚ) / nYears, true, "GPD"⟩) :=
  ⟨fun _ _ _ => rfl, fun _ _ _ => rfl⟩

theorem filterMap_filter_eq {α β : Type} (q : α → Bool) (g : α → Option β) (l : List α) :
    (l.filter q).filterMap g = l.filterMap (fun a => if q a then g a else none) := by
  induction l with
  | nil => rfl
  | cons a t ih =>
    by_cases h : q a
    · simp [List.filter_cons, h, List.filterMap_cons, ih]
    · simp [List.filter_cons, h, List.filterMap_cons, ih]

theorem handleNans_eq (data : List (ℤ × PyVal)) :
    handleNans data = data.filterMap (fun s =>
      match numbify s.2 with
      | PyVal.num x =>
          if x = 999 ∨ x = 9999 / 10 ∨ x = 999999 / 1000 then none else some (s.1, x)
      | _ => none) := by
  unfold handleNans
  rw [List.filter_filter, List.filter_filter, List.filter_map, List.filterMap_map,
    filterMap_filter_eq]
  apply List.filterMap_congr
  intro s _
  rcases s with ⟨ts, v⟩
  rcases v with q | _ | _
  · simp only [Function.comp, numbify, pyValNe, Bool.and_eq_true, decide_eq_true_eq]
    by_cases h : q = 999 ∨ q = 9999 / 10 ∨ q = 999999 / 1000
    · rw [if_neg (show ¬((¬q = 999 ∧ ¬q = 9999 / 10) ∧ ¬q = 999999 / 1000) by tauto),
        if_pos h]
    · push_neg at h
      obtain ⟨h1, h2, h3⟩ := h
      rw [if_pos ⟨⟨h1, h2⟩, h3⟩, if_neg (by tauto)]
  · simp [Function.comp, numbify, pyValNe]
  · simp [Function.comp, numbify, pyValNe]

/-- C10: with `handle_nans=True`, construction silently removes every sample
whose value equals exactly 999, 999.9 or 999.999, coerces unparseable values
to 999 (hence also removes them), and drops NaNs; all other samples survive
unchanged and in order.  The second conjunct shows concretely that a genuine
measurement of 999.9 is dropped while an ordinary value survives. -/
theorem c10_sentinel_cleaning :
    (∀ data : List (ℤ × PyVal),
      handleNans data = data.filterMap (fun s =>
        match numbify s.2 with
        | PyVal.num x =>
            if x = 999 ∨ x = 9999 / 10 ∨ x = 999999 / 1000 then none else some (s.1, x)
        | _ => none)) ∧
    handleNans [((0 : ℤ), PyVal.num (9999 / 10)), ((1 : ℤ), PyVal.nonNumeric),
      ((2 : ℤ), PyVal.num 7)] = [((2 : ℤ), (7 : ℚ))] := by
  refine ⟨handleNans_eq, ?_⟩
  rw [handleNans_eq]
  norm_num [List.filterMap_cons, numbify]

theorem runDecluster_ne_nil (r : ℤ) : ∀ (l : List Event) (a : Event), runDecluster r a l ≠ []
  | [], _ => by simp [runDecluster]
  | e :: es, a => by
    unfold runDecluster
    split_ifs
    · exact List.cons_ne_nil _ _
    · exact runDecluster_ne_nil r es e
    · exact runDecluster_ne_nil r es a

theorem potDecluster_some_ne_nil {u : ℚ} {r : ℤ} {data L : List Event}
    (h : potDecluster u r data = some L) : L ≠ [] := by
  unfold potDecluster at h
  cases he : potExceedances u data with
  | nil => rw [he] at h; exact absurd h (by simp)
  | cons e es =>
    rw [he] at h
    have : runDecluster r e es = L := by simpa using h
    rw [← this]
    exact runDecluster_ne_nil r es e

theorem listTraverse_some {α β : Type} (f : α → Option β) :
    ∀ (l : List α) (bs : List β), listTraverse f l = some bs →
      bs.length = l.length ∧
      ∀ i (hi : i < l.length) (hbi : i < bs.length),
        f (l.get ⟨i, hi⟩) = some (bs.get ⟨i, hbi⟩)
  | [], bs, h => by
    have : bs = [] := by simpa [listTraverse] using h.symm
    subst this
    exact ⟨rfl, fun i hi => absurd hi (by simp)⟩
  | a :: t, bs, h => by
    unfold listTraverse at h
    cases hfa : f a with
    | none => rw [hfa] at h; exact absurd h (by simp)
    | some b =>
      rw [hfa] at h
      cases hft : listTraverse f t with
      | none => rw [hft] at h; exact absurd h (by simp)
      | some bs2 =>
        rw [hft] at h
        have hbs : bs = b :: bs2 := by simpa using h.symm
        subst hbs
        obtain ⟨hlen, hget⟩ := listTraverse_some f t bs2 hft
        refine ⟨by simpa using hlen, ?_⟩
        intro i hi hbi
        match i with
        | 0 => simpa using hfa
        | Nat.succ j =>
          have hj : j < t.length := by simpa using hi
          have hbj : j < bs2.length := by simpa using hbi
          simpa using hget j hj hbj

theorem clipThresholds_le (dmax : ℚ) (us : List ℚ) :
    ∀ x ∈ clipThresholds dmax us, x ≤ dmax := by
  intro x hx
  unfold clipThresholds at hx
  by_cases hc : us.any (fun y => decide (dmax < y))
  · rw [if_pos hc] at hx
    exact of_decide_eq_true (List.mem_filter.mp hx).2
  · rw [if_neg hc] at hx
    have h := List.any_eq_false.mp (Bool.of_not_eq_true hc) x hx
    exact le_of_not_lt (by simpa using h)

theorem c6_decluster_eval : potDecluster 9 24 c6Data =
    some [((0 : ℤ), (10 : ℚ)), ((100 : ℤ), (14 : ℚ))] := by
  decide

theorem c6_point_eval : potResidualPoint c6Data 24 9 = some (3, 1) := by
  unfold potResidualPoint
  rw [c6_decluster_eval]
  norm_num [listMean, listVar]

/-- C6 counterexample: on a concrete two-sample series with threshold 9, the
squared interval scale the code passes to `sps.norm.interval` is
`(std/n)² = 1`, while the spec formula `std/√n` squares to `var/n = 2`; the
two definitions disagree at this input. -/
theorem c6_counterexample_interval_scale :
    (potResidualPoint c6Data 24 9).map Prod.snd = some 1 ∧
    specResidualScaleSq c6Data 24 9 = some 2 ∧
    (potResidualPoint c6Data 24 9).map Prod.snd ≠ specResidualScaleSq c6Data 24 9 := by
  have h1 : (potResidualPoint c6Data 24 9).map Prod.snd = some 1 := by
    rw [c6_point_eval]
    rfl
  have h2 : specResidualScaleSq c6Data 24 9 = some 2 := by
    unfold specResidualScaleSq
    rw [c6_decluster_eval]
    norm_num [listMean, listVar]
  refine ⟨h1, h2, ?_⟩
  rw [h1, h2]
  norm_num

/-- C6 amended: for each candidate threshold (the candidate list is clipped
so none exceeds the data maximum), the mean-residual-life diagnostic outputs
the mean of `value − u_i` over the declustered extremes together with a 95%
normal-approximation interval whose scale is the standard deviation of the
residuals divided by the SAMPLE SIZE (not its square root): in squared,
rational form, `scale² · n² = var`. -/
theorem c6_residual_diagnostic (data : List Event) (us : List ℚ) (r : ℤ)
    (out : List (ℚ × ℚ)) (h : potResiduals data us r = some out) :
    (∀ x ∈ clipThresholds (dataMax data) us, x ≤ dataMax data) ∧
    out.length = (clipThresholds (dataMax data) us).length ∧
    (∀ i (hi : i < (clipThresholds (dataMax data) us).length) (hoi : i < out.length),
      ∃ ext, potDecluster ((clipThresholds (dataMax data) us).get ⟨i, hi⟩) r data = some ext ∧
        ext ≠ [] ∧
        (out.get ⟨i, hoi⟩).1 * ((ext.length : ℚ)) =
          (ext.map (fun s => s.2 - (clipThresholds (dataMax data) us).get ⟨i, hi⟩)).sum ∧
        (out.get ⟨i, hoi⟩).2 * ((ext.length : ℚ)) ^ 2 =
          listVar (ext.map (fun s => s.2 - (clipThresholds (dataMax data) us).get ⟨i, hi⟩))) := by
  obtain ⟨hlen, hget⟩ := listTraverse_some _ _ _ h
  refine ⟨clipThresholds_le _ _, hlen, ?_⟩
  intro i hi hoi
  have hp := hget i hi hoi
  set ui := (clipThresholds (dataMax data) us).get ⟨i, hi⟩ with hui
  unfold potResidualPoint at hp
  cases hd : potDecluster ui r data with
  | none => rw [hd] at hp; exact absurd hp (by simp)
  | some ext =>
    rw [hd] at hp
    have hne : ext ≠ [] := potDecluster_some_ne_nil hd
    have hn : ((ext.length : ℚ)) ≠ 0 := by
      simpa using fun hc => hne (List.length_eq_zero.mp hc)
    have hval : (listMean (ext.map (fun s => s.2 - ui)),
        listVar (ext.map (fun s => s.2 - ui)) /
          (((ext.map (fun s => s.2 - ui)).length : ℚ)) ^ 2) = out.get ⟨i, hoi⟩ := by
      simpa using hp
    refine ⟨ext, rfl, hne, ?_, ?_⟩
    · rw [← hval]
      simp only [listMean, List.length_map]
      exact div_mul_cancel₀ _ hn
    · rw [← hval]
      simp only [List.length_map]
      exact div_mul_cancel₀ _ (pow_ne_zero 2 hn)

/-- Witness for C6 amended: the per-threshold shape at a concrete series. -/
theorem c6_residual_diagnostic_witness :
    ([((3 : ℚ), (1 : ℚ))] : List (ℚ × ℚ)).length =
      (clipThresholds (dataMax c6Data) [9]).length :=
  (c6_residual_diagnostic c6Data [9] 24 [(3, 1)] (by
    unfold potResiduals
    have hclip : clipThresholds (dataMax c6Data) [9] = [9] := by decide
    rw [hclip]
    simp [listTraverse, c6_point_eval])).2.1

theorem weibullTagged_length (N : ℚ) (ext : List Event) :
    (weibullTagged N ext).length = (sortByValue ext).length := by
  simp [weibullTagged]

theorem weibullTagged_map_proj (N : ℚ) (ext : List Event) :
    (weibullTagged N ext).map (fun x => (x.1, x.2.1)) = sortByValue ext := by
  simp only [weibullTagged, List.map_map]
  have hf : ((fun x : ℤ × ℚ × ℚ => (x.1, x.2.1)) ∘
      (fun ie : ℕ × ℤ × ℚ => (ie.2.1, ie.2.2, (N + 1) / (((sortByValue ext).length : ℚ) *
        (1 - (ie.1 : ℚ) / ((sortByValue ext).length : ℚ)))))) = Prod.snd := by
    funext ie
    simp
  rw [hf]
  exact List.enum_map_snd _

theorem weibullTagged_get (N : ℚ) (ext : List Event) (i : ℕ)
    (hi : i < (sortByValue ext).length) (hti : i < (weibullTagged N ext).length) :
    (weibullTagged N ext).get ⟨i, hti⟩ =
      (((sortByValue ext).get ⟨i, hi⟩).1, ((sortByValue ext).get ⟨i, hi⟩).2,
        (N + 1) / (((sortByValue ext).length : ℚ) *
          (1 - (i : ℚ) / ((sortByValue ext).length : ℚ)))) := by
  simp [weibullTagged, List.getElem_map, List.getElem_enum]

theorem weibull_denom (n i : ℕ) (hn : (n : ℚ) ≠ 0) :
    (n : ℚ) * (1 - (i : ℚ) / (n : ℚ)) = (n : ℚ) - (i : ℚ) := by
  rw [mul_sub, mul_one, mul_div_cancel₀ _ hn]

theorem weibullTagged_T_le (N : ℚ) (hN : 0 ≤ N) (ext : List Event) (i : ℕ)
    (hi : i < (sortByValue ext).length) (hti : i < (weibullTagged N ext).length) :
    ((weibullTagged N ext).get ⟨i, hti⟩).2.2 ≤ N + 1 := by
  rw [weibullTagged_get N ext i hi hti]
  have hn : ((sortByValue ext).length : ℚ) ≠ 0 := by
    have h0 : 0 < (sortByValue ext).length := Nat.zero_lt_of_lt hi
    exact_mod_cast h0.ne'
  have hd : (1 : ℚ) ≤ ((sortByValue ext).length : ℚ) - (i : ℚ) := by
    have : (i : ℚ) + 1 ≤ ((sortByValue ext).length : ℚ) := by exact_mod_cast hi
    linarith
  simp only [weibull_denom _ _ hn]
  exact div_le_self (by linarith) hd

/-- C2 counterexample: `get_extremes` computes return periods with
`self.N = max year − min year + 1` (here 2), NOT with
`number_of_blocks = span / block_size`: on a record spanning 394 days across
two calendar years, the single extreme event receives `T = (2+1)/1 = 3`,
whereas the claim's formula with `N_blocks = span / block_size ≈ 1.079`
would give `T = N_blocks + 1 ≈ 2.079 ≠ 3`. -/
theorem c2_counterexample_nblocks :
    getExtremesPOT c2Data 4 24 = some [((9456 : ℤ), (5 : ℚ), (3 : ℚ))] ∧
    specNumberOfBlocks c2Data + 1 ≠ (3 : ℚ) := by
  constructor
  · unfold getExtremesPOT
    have hd : potDecluster 4 24 (c2Data.map (fun o => (o.time, o.value))) =
        some [((9456 : ℤ), (5 : ℚ))] := by decide
    have hy : codeYearCount c2Data = 2 := by decide
    rw [hd, hy]
    norm_num [weibullT, weibullTagged, sortByValue, List.insertionSort, List.orderedInsert,
      List.enum, List.enumFrom]
  · have h1 : ((c2Data.map Obs.time).max?.getD 0) = 9456 := by decide
    have h2 : ((c2Data.map Obs.time).min?.getD 0) = 0 := by decide
    unfold specNumberOfBlocks
    rw [h1, h2]
    norm_num [blockSizeHours]

/-- C2 amended: for every non-empty extracted event set the code assigns
Weibull return periods with `N = self.N`, the integer count of calendar
years spanned (max year − min year + 1), not `span / block_size`: sorting
ascending by value, the rank-`i` event gets
`T_i = (N + 1) / (n · (1 − i/n))`; the stored set is a chronological
reordering of the tagged events, each keeping its computed `T_i`, and the
event carrying the maximum value carries the maximal, finite return period
`N + 1`. -/
theorem c2_weibull_return_periods (N : ℚ) (hN : 0 ≤ N) (ext : List Event) (hne : ext ≠ []) :
    ((weibullT N ext).map (fun x => (x.1, x.2.1))).Perm ext ∧
    List.Sorted (fun p q : ℤ × ℚ × ℚ => p.1 ≤ q.1) (weibullT N ext) ∧
    (weibullT N ext).Perm (weibullTagged N ext) ∧
    (∀ i (hti : i < (weibullTagged N ext).length),
      ((weibullTagged N ext).get ⟨i, hti⟩).2.2 =
        (N + 1) / (((sortByValue ext).length : ℚ) *
          (1 - (i : ℚ) / ((sortByValue ext).length : ℚ)))) ∧
    (∃ x ∈ weibullT N ext, x.2.2 = N + 1 ∧
      (∀ y ∈ weibullT N ext, y.2.2 ≤ x.2.2) ∧ (∀ y ∈ weibullT N ext, y.2.1 ≤ x.2.1)) := by
  have hperm_t : (weibullT N ext).Perm (weibullTagged N ext) :=
    List.perm_insertionSort _ _
  have hsv : (sortByValue ext).Perm ext := List.perm_insertionSort _ _
  have hn_pos : 0 < (sortByValue ext).length := by
    rw [hsv.length_eq]
    exact List.length_pos.mpr hne
  have hn : ((sortByValue ext).length : ℚ) ≠ 0 := by exact_mod_cast hn_pos.ne'
  refine ⟨?_, List.sorted_insertionSort _ _, hperm_t, ?_, ?_⟩
  · exact ((hperm_t.map _).trans (by rw [weibullTagged_map_proj])).trans hsv
  · intro i hti
    rw [weibullTagged_get N ext i (by rw [← weibullTagged_length N ext]; exact hti) hti]
  · have hlast : (sortByValue ext).length - 1 < (sortByValue ext).length :=
      Nat.sub_lt hn_pos Nat.one_pos
    have htlast : (sortByValue ext).length - 1 < (weibullTagged N ext).length := by
      rw [weibullTagged_length]
      exact hlast
    have hcast : (((sortByValue ext).length - 1 : ℕ) : ℚ) =
        ((sortByValue ext).length : ℚ) - 1 := by
      exact_mod_cast Nat.cast_sub hn_pos
    have hdenom : ((sortByValue ext).length : ℚ) -
        (((sortByValue ext).length - 1 : ℕ) : ℚ) = 1 := by
      rw [hcast]
      ring
    have hTlast : ((weibullTagged N ext).get
        ⟨(sortByValue ext).length - 1, htlast⟩).2.2 = N + 1 := by
      rw [weibullTagged_get N ext _ hlast htlast, weibull_denom _ _ hn, hdenom, div_one]
    refine ⟨(weibullTagged N ext).get ⟨(sortByValue ext).length - 1, htlast⟩,
      (hperm_t.mem_iff).mpr (List.get_mem _ _ _), hTlast, ?_, ?_⟩
    · intro y hy
      obtain ⟨⟨j, hj⟩, rfl⟩ := List.mem_iff_get.mp ((hperm_t.mem_iff).mp hy)
      have hj2 : j < (sortByValue ext).length := by
        rw [← weibullTagged_length N ext]
        exact hj
      rw [hTlast]
      exact weibullTagged_T_le N hN ext j hj2 hj
    · intro y hy
      obtain ⟨⟨j, hj⟩, rfl⟩ := List.mem_iff_get.mp ((hperm_t.mem_iff).mp hy)
      have hj2 : j < (sortByValue ext).length := by
        rw [← weibullTagged_length N ext]
        exact hj
      rw [weibullTagged_get N ext j hj2 hj, weibullTagged_get N ext _ hlast htlast]
      have hs : List.Sorted (fun p q : Event => p.2 ≤ q.2) (sortByValue ext) :=
        List.sorted_insertionSort _ _
      rcases Nat.lt_or_ge j ((sortByValue ext).length - 1) with hlt | hge
      · exact hs.rel_get_of_lt (Fin.mk_lt_mk.mpr hlt)
      · have hj_eq : j = (sortByValue ext).length - 1 :=
          Nat.le_antisymm (Nat.le_sub_one_of_lt hj2) hge
        subst hj_eq
        exact le_refl _

/-- Witness for C2 amended: the chronological-order conjunct at a concrete
two-event input. -/
theorem c2_weibull_return_periods_witness :
    List.Sorted (fun p q : ℤ × ℚ × ℚ => p.1 ≤ q.1)
      (weibullT 2 [((5 : ℤ), (2 : ℚ)), ((0 : ℤ), (1 : ℚ))]) :=
  (c2_weibull_return_periods 2 (by norm_num) _ (by decide)).2.1

theorem potCount_nil (u : ℚ) (r : ℤ) (a : Event) : potCount u r a [] = 1 := rfl

theorem potCount_cons (u : ℚ) (r : ℤ) (a e : Event) (es : List Event) :
    potCount u r a (e :: es) =
      if u < e.2 then
        (if r ≤ e.1 - a.1 then potCount u r e es + 1
         else if a.2 < e.2 then potCount u r e es
         else potCount u r a es)
      else potCount u r a es := by
  by_cases h : u < e.2
  · rw [if_pos h]
    unfold potCount
    rw [List.filter_cons, if_pos (by simpa using h)]
    simp only [runDecluster]
    by_cases hg : r ≤ e.1 - a.1
    · rw [if_pos hg, if_pos hg]
      simp
    · rw [if_neg hg, if_neg hg]
      by_cases hv : a.2 < e.2
      · rw [if_pos hv, if_pos hv]
      · rw [if_neg hv, if_neg hv]
  · rw [if_neg h]
    unfold potCount
    rw [List.filter_cons, if_neg (by simpa using h)]

/-- The simultaneous induction behind threshold monotonicity of the
declustered count.  `a` anchors the `u1`-run and `b` anchors the `u2`-run;
the `u2`-anchor always carries a value above `u2`.  When the `u1`-anchor is
no later and at least as large, the `u2`-run retains no more clusters; when
it is no earlier and no larger, the `u2`-run retains at most one more. -/
theorem potCount_master (u1 u2 : ℚ) (r : ℤ) (hu : u1 ≤ u2) :
    ∀ l : List Event, List.Pairwise (fun p q : Event => p.1 ≤ q.1) l →
    ∀ a b : Event, (∀ p ∈ l, a.1 ≤ p.1) → (∀ p ∈ l, b.1 ≤ p.1) → u2 < b.2 →
      (a.1 ≤ b.1 → b.2 ≤ a.2 → potCount u2 r b l ≤ potCount u1 r a l) ∧
      (b.1 ≤ a.1 → a.2 ≤ b.2 → potCount u2 r b l ≤ 1 + potCount u1 r a l) := by
  intro l
  induction l with
  | nil =>
    intro _ a b _ _ _
    constructor <;> intro _ _ <;> simp [potCount_nil]
  | cons e es ih =>
    intro hp a b ha hb hb2
    obtain ⟨he, hes⟩ := List.pairwise_cons.mp hp
    have hae : a.1 ≤ e.1 := ha e (by simp)
    have hbe : b.1 ≤ e.1 := hb e (by simp)
    have ha' : ∀ p ∈ es, a.1 ≤ p.1 := fun p hp' => ha p (by simp [hp'])
    have hb' : ∀ p ∈ es, b.1 ≤ p.1 := fun p hp' => hb p (by simp [hp'])
    rw [potCount_cons, potCount_cons]
    rcases le_or_lt e.2 u1 with h1 | h1
    · rw [if_neg (not_lt.mpr (h1.trans hu)), if_neg (not_lt.mpr h1)]
      exact ih hes a b ha' hb' hb2
    · rcases le_or_lt e.2 u2 with h2 | h2
      · -- u1 < e.2 ≤ u2: the u2-run skips e, the u1-run processes it
        rw [if_neg (not_lt.mpr h2), if_pos h1]
        have heb : e.2 ≤ b.2 := h2.trans (le_of_lt hb2)
        constructor
        · intro hab hba
          by_cases hg : r ≤ e.1 - a.1
          · rw [if_pos hg]
            have h4 := (ih hes e b he hb' hb2).2 hbe heb
            omega
          · rw [if_neg hg]
            by_cases hv : a.2 < e.2
            · exfalso
              have : b.2 < b.2 := lt_of_le_of_lt hba (lt_of_lt_of_le hv heb)
              exact lt_irrefl _ this
            · rw [if_neg hv]
              exact (ih hes a b ha' hb' hb2).1 hab hba
        · intro hba hab
          by_cases hg : r ≤ e.1 - a.1
          · rw [if_pos hg]
            have h4 := (ih hes e b he hb' hb2).2 hbe heb
            omega
          · rw [if_neg hg]
            by_cases hv : a.2 < e.2
            · rw [if_pos hv]
              exact (ih hes e b he hb' hb2).2 hbe heb
            · rw [if_neg hv]
              exact (ih hes a b ha' hb' hb2).2 hba hab
      · -- u2 < e.2: both runs process e
        have h1' : u1 < e.2 := lt_of_le_of_lt hu h2
        rw [if_pos h2, if_pos h1']
        have IHee : potCount u2 r e es ≤ potCount u1 r e es :=
          (ih hes e e he he h2).1 le_rfl le_rfl
        constructor
        · intro hab hba
          by_cases hgb : r ≤ e.1 - b.1
          · have hga : r ≤ e.1 - a.1 := le_trans hgb (by linarith)
            rw [if_pos hga, if_pos hgb]
            omega
          · rw [if_neg hgb]
            by_cases hga : r ≤ e.1 - a.1
            · rw [if_pos hga]
              by_cases hvb : b.2 < e.2
              · rw [if_pos hvb]
                omega
              · rw [if_neg hvb]
                have h4 := (ih hes e b he hb' hb2).2 hbe (not_lt.mp hvb)
                omega
            · rw [if_neg hga]
              by_cases hva : a.2 < e.2
              · have hvb : b.2 < e.2 := lt_of_le_of_lt hba hva
                rw [if_pos hva, if_pos hvb]
                exact IHee
              · rw [if_neg hva]
                by_cases hvb : b.2 < e.2
                · rw [if_pos hvb]
                  exact (ih hes a e ha' he h2).1 hae (not_lt.mp hva)
                · rw [if_neg hvb]
                  exact (ih hes a b ha' hb' hb2).1 hab hba
        · intro hba hab
          by_cases hga : r ≤ e.1 - a.1
          · have hgb : r ≤ e.1 - b.1 := le_trans hga (by linarith)
            rw [if_pos hga, if_pos hgb]
            omega
          · rw [if_neg hga]
            by_cases hgb : r ≤ e.1 - b.1
            · rw [if_pos hgb]
              by_cases hva : a.2 < e.2
              · rw [if_pos hva]
                omega
              · rw [if_neg hva]
                have h4 := (ih hes a e ha' he h2).1 hae (not_lt.mp hva)
                omega
            · rw [if_neg hgb]
              by_cases hva : a.2 < e.2
              · by_cases hvb : b.2 < e.2
                · rw [if_pos hva, if_pos hvb]
                  omega
                · rw [if_pos hva, if_neg hvb]
                  have h4 := (ih hes e b he hb' hb2).2 hbe (not_lt.mp hvb)
                  omega
              · rw [if_neg hva]
                have hvb : ¬ b.2 < e.2 := not_lt.mpr (le_trans (not_lt.mp hva) hab)
                rw [if_neg hvb]
                exact (ih hes a b ha' hb' hb2).2 hba hab

theorem potStartCount_nil (u : ℚ) (r : ℤ) : potStartCount u r [] = 0 := rfl

theorem potStartCount_cons (u : ℚ) (r : ℤ) (e : Event) (es : List Event) :
    potStartCount u r (e :: es) =
      if u < e.2 then potCount u r e es else potStartCount u r es := by
  by_cases h : u < e.2
  · rw [if_pos h]
    unfold potStartCount potDecluster potExceedances potCount
    rw [List.filter_cons, if_pos (by simpa using h)]
  · rw [if_neg h]
    unfold potStartCount potDecluster potExceedances
    rw [List.filter_cons, if_neg (by simpa using h)]

theorem potStartCount_le_potCount (u1 u2 : ℚ) (r : ℤ) (hu : u1 ≤ u2) :
    ∀ l : List Event, List.Pairwise (fun p q : Event => p.1 ≤ q.1) l →
    ∀ a : Event, (∀ p ∈ l, a.1 ≤ p.1) → potStartCount u2 r l ≤ potCount u1 r a l := by
  intro l
  induction l with
  | nil =>
    intro _ a _
    simp [potStartCount_nil, potCount_nil]
  | cons e es ih =>
    intro hp a ha
    obtain ⟨he, hes⟩ := List.pairwise_cons.mp hp
    have hae : a.1 ≤ e.1 := ha e (by simp)
    have ha' : ∀ p ∈ es, a.1 ≤ p.1 := fun p hp' => ha p (by simp [hp'])
    rw [potStartCount_cons, potCount_cons]
    rcases le_or_lt e.2 u1 with h1 | h1
    · rw [if_neg (not_lt.mpr (h1.trans hu)), if_neg (not_lt.mpr h1)]
      exact ih hes a ha'
    · rcases le_or_lt e.2 u2 with h2 | h2
      · rw [if_neg (not_lt.mpr h2), if_pos h1]
        by_cases hg : r ≤ e.1 - a.1
        · rw [if_pos hg]
          have h4 := ih hes e he
          omega
        · rw [if_neg hg]
          by_cases hv : a.2 < e.2
          · rw [if_pos hv]
            exact ih hes e he
          · rw [if_neg hv]
            exact ih hes a ha'
      · rw [if_pos h2, if_pos (lt_of_le_of_lt hu h2)]
        by_cases hg : r ≤ e.1 - a.1
        · rw [if_pos hg]
          have h4 := (potCount_master u1 u2 r hu es hes e e he he h2).1 le_rfl le_rfl
          omega
        · rw [if_neg hg]
          by_cases hv : a.2 < e.2
          · rw [if_pos hv]
            exact (potCount_master u1 u2 r hu es hes e e he he h2).1 le_rfl le_rfl
          · rw [if_neg hv]
            exact (potCount_master u1 u2 r hu es hes a e ha' he h2).1 hae (not_lt.mp hv)

theorem potStartCount_mono (u1 u2 : ℚ) (r : ℤ) (hu : u1 ≤ u2) :
    ∀ l : List Event, List.Pairwise (fun p q : Event => p.1 ≤ q.1) l →
      potStartCount u2 r l ≤ potStartCount u1 r l := by
  intro l
  induction l with
  | nil =>
    intro _
    simp [potStartCount_nil]
  | cons e es ih =>
    intro hp
    obtain ⟨he, hes⟩ := List.pairwise_cons.mp hp
    rw [potStartCount_cons, potStartCount_cons]
    rcases le_or_lt e.2 u1 with h1 | h1
    · rw [if_neg (not_lt.mpr (h1.trans hu)), if_neg (not_lt.mpr h1)]
      exact ih hes
    · rcases le_or_lt e.2 u2 with h2 | h2
      · rw [if_neg (not_lt.mpr h2), if_pos h1]
        exact potStartCount_le_potCount u1 u2 r hu es hes e he
      · rw [if_pos h2, if_pos (lt_of_le_of_lt hu h2)]
        exact (potCount_master u1 u2 r hu es hes e e he he h2).1 le_rfl le_rfl

theorem potDecluster_length {u : ℚ} {r : ℤ} {data L : List Event}
    (h : potDecluster u r data = some L) : L.length = potStartCount u r data := by
  unfold potStartCount
  rw [h]

/-- C3: on a time-sorted series, raising the POT threshold never increases
the extraction count: for `u1 ≤ u2` the number of raw exceedances at `u2` is
at most that at `u1`, and whenever the declustered extraction succeeds at
both thresholds (same run length `r`), the declustered count at `u2` is at
most that at `u1`. -/
theorem c3_pot_count_threshold_monotone (data : List Event)
    (hsorted : List.Pairwise (fun p q : Event => p.1 ≤ q.1) data)
    (u1 u2 : ℚ) (r : ℤ) (hu : u1 ≤ u2) :
    (potExceedances u2 data).length ≤ (potExceedances u1 data).length ∧
    (∀ L1 L2, potDecluster u1 r data = some L1 → potDecluster u2 r data = some L2 →
      L2.length ≤ L1.length) := by
  constructor
  · exact List.Sublist.length_le
      (List.monotone_filter_right data (fun s hs => by
        simp only [decide_eq_true_eq] at hs ⊢
        exact lt_of_le_of_lt hu hs))
  · intro L1 L2 h1 h2
    rw [potDecluster_length h1, potDecluster_length h2]
    exact potStartCount_mono u1 u2 r hu data hsorted

/-- Witness for C3: a concrete sorted two-event series with thresholds 1 and
4, where both extractions succeed. -/
theorem c3_pot_count_threshold_monotone_witness :
    (potExceedances 4 [((0 : ℤ), (3 : ℚ)), ((100 : ℤ), (5 : ℚ))]).length ≤
      (potExceedances 1 [((0 : ℤ), (3 : ℚ)), ((100 : ℤ), (5 : ℚ))]).length ∧
    ([((100 : ℤ), (5 : ℚ))] : List Event).length ≤
      ([((0 : ℤ), (3 : ℚ)), ((100 : ℤ), (5 : ℚ))] : List Event).length :=
  have h := c3_pot_count_threshold_monotone [((0 : ℤ), (3 : ℚ)), ((100 : ℤ), (5 : ℚ))]
    (by decide) 1 4 24 (by decide)
  ⟨h.1, h.2 _ _ (by decide) (by decide)⟩

end Coastlib
